import Mathlib

/-!
Verification of the `intro_ml_pytorch` repository: the hand-written
cross-entropy functions of `Chapter2/Projects/Spam_&_Ensembles.ipynb`,
the metric-printing helper of the same notebook, the neural-network
training loop it contains, and the input-reading structure of the two
notebooks (the spam notebook and the regularization exercise).

Python floating-point arithmetic is idealized as exact real arithmetic,
numpy 1-D arrays as `List ℝ`, and `np.log` as `Real.log`.
-/

open Filter Topology

noncomputable section

/-- `np.int_` applied elementwise to real inputs: C-style conversion of a
double to an integer, i.e. truncation toward zero, read back as a real. -/
def np_int (x : ℝ) : ℝ := if 0 ≤ x then (⌊x⌋ : ℝ) else (⌈x⌉ : ℝ)

/-- One elementwise term of the numpy expression
`Y*np.log(P) + (1 - Y)*np.log(1 - P)`. -/
def ceTerm (y p : ℝ) : ℝ := y * Real.log p + (1 - y) * Real.log (1 - p)

/-- Embedding of the notebook function
```
def cross_entropy(Y, P):
    Y = np.int_(Y)
    P = np.float_(P)
    return -np.sum(Y*np.log(P) + (1 -Y)*np.log(1-P))
```
for equal-length 1-D inputs (numpy raises on mismatched shapes). -/
def cross_entropy (Y P : List ℝ) : ℝ :=
  -(List.zipWith (fun y p => ceTerm (np_int y) p) Y P).sum

/-- `np.sum` applied to an already-scalar (0-dimensional) operand: numpy
returns the scalar unchanged. -/
def np_sum_scalar (x : ℝ) : ℝ := x

/-- Embedding of the notebook function
```
def m_cross_entropy(Y, P):
    Y = np.float_(Y)
    P = np.float_(P)
    return -np.sum(np.sum(Y*np.log(P) + (1 -Y)*np.log(1-P)))
```
The inner `np.sum` reduces the 1-D array to a scalar; the outer `np.sum`
acts on that scalar. -/
def m_cross_entropy (Y P : List ℝ) : ℝ :=
  -np_sum_scalar (List.zipWith ceTerm Y P).sum

lemma np_int_zero : np_int 0 = 0 := by simp [np_int]

lemma np_int_one : np_int 1 = 1 := by simp [np_int]

lemma np_int_eq_self {y : ℝ} (h : y = 0 ∨ y = 1) : np_int y = y := by
  rcases h with rfl | rfl
  · exact np_int_zero
  · exact np_int_one

lemma ceTerm_one (p : ℝ) : ceTerm (np_int 1) p = Real.log p := by
  rw [np_int_one]
  simp [ceTerm]

lemma ceTerm_zero (p : ℝ) : ceTerm (np_int 0) p = Real.log (1 - p) := by
  rw [np_int_zero]
  simp [ceTerm]

/-- The value of `cross_entropy` on the notebook's test input is exactly
`log 125`. -/
lemma cross_entropy_example :
    cross_entropy [1, 0, 1, 1] [0.4, 0.6, 0.1, 0.5] = Real.log 125 := by
  have h4 : (0.4 : ℝ) ≠ 0 := by norm_num
  have h1 : (0.1 : ℝ) ≠ 0 := by norm_num
  have h5 : (0.5 : ℝ) ≠ 0 := by norm_num
  have h44 : (0.4 * 0.4 : ℝ) ≠ 0 := by norm_num
  have h441 : (0.4 * 0.4 * 0.1 : ℝ) ≠ 0 := by norm_num
  have expand : cross_entropy [1, 0, 1, 1] [0.4, 0.6, 0.1, 0.5] =
      -(Real.log 0.4 + Real.log 0.4 + Real.log 0.1 + Real.log 0.5) := by
    simp only [cross_entropy, List.zipWith, List.sum_cons, List.sum_nil,
      ceTerm_one, ceTerm_zero]
    norm_num
    ring
  rw [expand, ← Real.log_mul h4 h4, ← Real.log_mul h44 h1, ← Real.log_mul h441 h5,
    show (0.4 * 0.4 * 0.1 * 0.5 : ℝ) = 125⁻¹ by norm_num, Real.log_inv, neg_neg]

lemma log_125_decomp : Real.log 125 = 7 * Real.log 2 - Real.log (128 / 125) := by
  rw [Real.log_div (by norm_num) (by norm_num), show (128 : ℝ) = 2 ^ 7 by norm_num,
    Real.log_pow]
  push_cast
  ring

/-- Rational enclosure of `log 125` tight enough to certify the decimal the
notebook prints. -/
lemma log_125_approx : |Real.log 125 - 4.828313737302301| < 0.001 := by
  have d := log_125_decomp
  have l2a := Real.log_two_gt_d9
  have l2b := Real.log_two_lt_d9
  have hup : Real.log (128 / 125 : ℝ) ≤ 3 / 125 := by
    have h := Real.log_le_sub_one_of_pos (show (0 : ℝ) < 128 / 125 by norm_num)
    linarith
  have hlo : (3 : ℝ) / 128 ≤ Real.log (128 / 125 : ℝ) := by
    have h := Real.log_le_sub_one_of_pos (show (0 : ℝ) < 125 / 128 by norm_num)
    have e : Real.log (125 / 128 : ℝ) = -Real.log (128 / 125) := by
      rw [show (125 / 128 : ℝ) = (128 / 125)⁻¹ by norm_num, Real.log_inv]
    rw [e] at h
    linarith
  rw [abs_sub_lt_iff]
  constructor
  · linarith
  · linarith

/-- C1: on `Y = [1, 0, 1, 1]`, `P = [0.4, 0.6, 0.1, 0.5]` the notebook's
`cross_entropy` returns exactly `log 125`, which is within floating-point
tolerance of the printed value `4.828313737302301`. -/
theorem c1_binary_cross_entropy_value :
    cross_entropy [1, 0, 1, 1] [0.4, 0.6, 0.1, 0.5] = Real.log 125 ∧
    |Real.log 125 - 4.828313737302301| < 0.001 :=
  ⟨cross_entropy_example, log_125_approx⟩

lemma zipWith_np_int_eq : ∀ (Y P : List ℝ), (∀ y ∈ Y, y = 0 ∨ y = 1) →
    List.zipWith (fun y p => ceTerm (np_int y) p) Y P = List.zipWith ceTerm Y P := by
  intro Y
  induction Y with
  | nil => intro P _; simp
  | cons y ys ih =>
    intro P h
    cases P with
    | nil => simp
    | cons p ps =>
      simp only [List.zipWith]
      rw [np_int_eq_self (h y (List.mem_cons_self y ys)),
        ih ps (fun z hz => h z (List.mem_cons_of_mem y hz))]

lemma binary_labels_example : ∀ y ∈ ([1, 0, 1, 1] : List ℝ), y = 0 ∨ y = 1 := by
  intro y hy
  simp only [List.mem_cons, List.not_mem_nil, or_false] at hy
  rcases hy with rfl | rfl | rfl | rfl
  · right; rfl
  · left; rfl
  · right; rfl
  · right; rfl

/-- C2: on equal-length inputs whose labels all lie in `{0, 1}`, the
multi-class variant `m_cross_entropy` agrees with the binary variant
`cross_entropy`; in particular both return `log 125` (printed as
`4.828313737302301`) on the notebook's test input. -/
theorem c2_multi_class_agrees_on_binary_labels :
    (∀ (Y P : List ℝ), Y.length = P.length → (∀ y ∈ Y, y = 0 ∨ y = 1) →
      m_cross_entropy Y P = cross_entropy Y P) ∧
    m_cross_entropy [1, 0, 1, 1] [0.4, 0.6, 0.1, 0.5] = Real.log 125 := by
  constructor
  · intro Y P _ h
    unfold m_cross_entropy cross_entropy np_sum_scalar
    rw [zipWith_np_int_eq Y P h]
  · have e : m_cross_entropy [1, 0, 1, 1] [0.4, 0.6, 0.1, 0.5] =
        cross_entropy [1, 0, 1, 1] [0.4, 0.6, 0.1, 0.5] := by
      unfold m_cross_entropy cross_entropy np_sum_scalar
      rw [zipWith_np_int_eq _ _ binary_labels_example]
    rw [e, cross_entropy_example]

theorem c2_multi_class_agrees_on_binary_labels_witness :
    m_cross_entropy [1, 0, 1, 1] [0.4, 0.6, 0.1, 0.5] =
      cross_entropy [1, 0, 1, 1] [0.4, 0.6, 0.1, 0.5] :=
  c2_multi_class_agrees_on_binary_labels.1 _ _ rfl binary_labels_example

lemma ceTerm_complement {y p : ℝ} (hy : y = 0 ∨ y = 1) :
    ceTerm (np_int (1 - y)) (1 - p) = ceTerm (np_int y) p := by
  rcases hy with rfl | rfl
  · rw [show (1 : ℝ) - 0 = 1 by norm_num, ceTerm_one, ceTerm_zero]
  · rw [show (1 : ℝ) - 1 = 0 by norm_num, ceTerm_zero, ceTerm_one,
      show (1 : ℝ) - (1 - p) = p by ring]

lemma zipWith_complement : ∀ (Y P : List ℝ), (∀ y ∈ Y, y = 0 ∨ y = 1) →
    List.zipWith (fun y p => ceTerm (np_int y) p)
      (Y.map (fun y => 1 - y)) (P.map (fun p => 1 - p)) =
    List.zipWith (fun y p => ceTerm (np_int y) p) Y P := by
  intro Y
  induction Y with
  | nil => intro P _; simp
  | cons y ys ih =>
    intro P h
    cases P with
    | nil => simp
    | cons p ps =>
      simp only [List.map_cons, List.zipWith_cons_cons]
      rw [ceTerm_complement (h y (List.mem_cons_self y ys)),
        ih ps (fun z hz => h z (List.mem_cons_of_mem y hz))]

/-- C3: simultaneously complementing every label (`y → 1 - y`) and every
probability (`p → 1 - p`) leaves `cross_entropy` unchanged, for binary
labels and probabilities strictly between 0 and 1. -/
theorem c3_complement_symmetry :
    ∀ (Y P : List ℝ), Y.length = P.length → (∀ y ∈ Y, y = 0 ∨ y = 1) →
      (∀ p ∈ P, 0 < p ∧ p < 1) →
      cross_entropy (Y.map (fun y => 1 - y)) (P.map (fun p => 1 - p)) =
        cross_entropy Y P := by
  intro Y P _ hY _
  unfold cross_entropy
  rw [zipWith_complement Y P hY]

theorem c3_complement_symmetry_witness :
    cross_entropy (List.map (fun y => 1 - y) [1, 0])
        (List.map (fun p => 1 - p) [0.4, 0.6]) =
      cross_entropy [1, 0] [0.4, 0.6] :=
  c3_complement_symmetry [1, 0] [0.4, 0.6] rfl
    (by
      intro y hy
      simp only [List.mem_cons, List.not_mem_nil, or_false] at hy
      rcases hy with rfl | rfl
      · right; rfl
      · left; rfl)
    (by
      intro p hp
      simp only [List.mem_cons, List.not_mem_nil, or_false] at hp
      rcases hp with rfl | rfl
      · constructor <;> norm_num
      · constructor <;> norm_num)

lemma cross_entropy_split (A B Q R : List ℝ) (h : A.length = Q.length) (y p : ℝ) :
    cross_entropy (A ++ y :: B) (Q ++ p :: R) =
      -((List.zipWith (fun a b => ceTerm (np_int a) b) A Q).sum +
        (ceTerm (np_int y) p +
          (List.zipWith (fun a b => ceTerm (np_int a) b) B R).sum)) := by
  unfold cross_entropy
  rw [List.zipWith_append _ _ _ _ _ h, List.sum_append, List.zipWith_cons_cons,
    List.sum_cons]

/-- C4: with all other entries held fixed, `cross_entropy` diverges to `+∞`
as the probability attached to a true label `1` tends to `0` from the
right, and likewise as the probability attached to a true label `0` tends
to `1` from the left. -/
theorem c4_divergence_at_confident_mistakes :
    ∀ (A B Q R : List ℝ), A.length = Q.length →
      Filter.Tendsto (fun p => cross_entropy (A ++ 1 :: B) (Q ++ p :: R))
        (𝓝[>] (0 : ℝ)) Filter.atTop ∧
      Filter.Tendsto (fun p => cross_entropy (A ++ 0 :: B) (Q ++ p :: R))
        (𝓝[<] (1 : ℝ)) Filter.atTop := by
  intro A B Q R h
  set s1 := (List.zipWith (fun a b => ceTerm (np_int a) b) A Q).sum with hs1
  set s2 := (List.zipWith (fun a b => ceTerm (np_int a) b) B R).sum with hs2
  constructor
  · have hneg : Filter.Tendsto (fun p : ℝ => -Real.log p) (𝓝[>] (0 : ℝ))
        Filter.atTop :=
      Filter.tendsto_neg_atTop_iff.mpr Real.tendsto_log_nhdsWithin_zero_right
    have base : Filter.Tendsto (fun p : ℝ => -(s1 + s2) + -Real.log p)
        (𝓝[>] (0 : ℝ)) Filter.atTop :=
      Filter.tendsto_atTop_add_const_left _ _ hneg
    refine base.congr fun p => ?_
    rw [cross_entropy_split A B Q R h 1 p, ceTerm_one]
    ring
  · have hmap : Filter.Tendsto (fun p : ℝ => 1 - p) (𝓝[<] (1 : ℝ))
        (𝓝[>] (0 : ℝ)) := by
      refine tendsto_nhdsWithin_of_tendsto_nhds_of_eventually_within _ ?_ ?_
      · have hc : Filter.Tendsto (fun p : ℝ => 1 - p) (𝓝 (1 : ℝ)) (𝓝 (1 - 1)) :=
          (continuous_const.sub continuous_id).tendsto 1
        rw [show (1 : ℝ) - 1 = 0 by norm_num] at hc
        exact hc.mono_left nhdsWithin_le_nhds
      · refine eventually_mem_nhdsWithin.mono fun p hp => ?_
        have hp1 : p < 1 := hp
        simp only [Set.mem_Ioi]
        linarith
    have hlog : Filter.Tendsto (fun p : ℝ => Real.log (1 - p)) (𝓝[<] (1 : ℝ))
        Filter.atBot :=
      Real.tendsto_log_nhdsWithin_zero_right.comp hmap
    have hneg : Filter.Tendsto (fun p : ℝ => -Real.log (1 - p)) (𝓝[<] (1 : ℝ))
        Filter.atTop :=
      Filter.tendsto_neg_atTop_iff.mpr hlog
    have base : Filter.Tendsto (fun p : ℝ => -(s1 + s2) + -Real.log (1 - p))
        (𝓝[<] (1 : ℝ)) Filter.atTop :=
      Filter.tendsto_atTop_add_const_left _ _ hneg
    refine base.congr fun p => ?_
    rw [cross_entropy_split A B Q R h 0 p, ceTerm_zero]
    ring

theorem c4_divergence_at_confident_mistakes_witness :
    Filter.Tendsto (fun p => cross_entropy [1] [p]) (𝓝[>] (0 : ℝ))
      Filter.atTop :=
  (c4_divergence_at_confident_mistakes [] [] [] [] rfl).1

lemma m_cross_entropy_half : m_cross_entropy [(0.5 : ℝ)] [0.5] = Real.log 2 := by
  have e : m_cross_entropy [(0.5 : ℝ)] [0.5] = -Real.log 0.5 := by
    unfold m_cross_entropy np_sum_scalar
    simp only [List.zipWith_cons_cons, List.zipWith_nil_right, List.sum_cons,
      List.sum_nil, ceTerm]
    rw [show (1 : ℝ) - 0.5 = 0.5 by norm_num]
    ring
  rw [e, show (0.5 : ℝ) = 2⁻¹ by norm_num, Real.log_inv, neg_neg]

/-- C5: cross-entropy of element-wise equal inputs is not zero: on
`V = [0.5]` (entries strictly between 0 and 1) the multi-class function
returns `log 2 ≠ 0`. -/
theorem c5_not_zero_at_equality :
    ∃ V : List ℝ, (∀ v ∈ V, 0 < v ∧ v < 1) ∧ m_cross_entropy V V ≠ 0 ∧
      m_cross_entropy [(0.5 : ℝ)] [0.5] = Real.log 2 := by
  refine ⟨[0.5], ?_, ?_, m_cross_entropy_half⟩
  · intro v hv
    simp only [List.mem_cons, List.not_mem_nil, or_false] at hv
    subst hv
    constructor <;> norm_num
  · rw [m_cross_entropy_half]
    exact ne_of_gt (Real.log_pos (by norm_num))

lemma np_int_half : np_int (0.5 : ℝ) = 0 := by
  unfold np_int
  rw [if_pos (by norm_num)]
  norm_num

/-- C6: `cross_entropy` truncates its labels with `np.int_` while
`m_cross_entropy` keeps them as floats, so `cross_entropy Y P` always
agrees with `m_cross_entropy` on the truncated labels, and the two
functions differ on the non-integer label list `[0.5]`. -/
theorem c6_int_truncation_relation :
    (∀ (Y P : List ℝ), Y.length = P.length →
      cross_entropy Y P = m_cross_entropy (Y.map np_int) P) ∧
    cross_entropy [0.5] [0.4] ≠ m_cross_entropy [0.5] [0.4] := by
  constructor
  · intro Y P _
    unfold cross_entropy m_cross_entropy np_sum_scalar
    rw [List.zipWith_map_left]
  · have hl : cross_entropy [(0.5 : ℝ)] [0.4] = Real.log (5 / 3) := by
      unfold cross_entropy
      simp only [List.zipWith_cons_cons, List.zipWith_nil_right, List.sum_cons,
        List.sum_nil, np_int_half, ceTerm]
      rw [show (1 : ℝ) - 0.4 = 0.6 by norm_num,
        show (0.6 : ℝ) = (5 / 3)⁻¹ by norm_num, Real.log_inv]
      ring
    have hr : m_cross_entropy [(0.5 : ℝ)] [0.4] = (1 / 2) * Real.log (25 / 6) := by
      unfold m_cross_entropy np_sum_scalar
      simp only [List.zipWith_cons_cons, List.zipWith_nil_right, List.sum_cons,
        List.sum_nil, ceTerm]
      rw [show (1 : ℝ) - 0.5 = 0.5 by norm_num,
        show (1 : ℝ) - 0.4 = 0.6 by norm_num]
      have hm : Real.log (0.4 : ℝ) + Real.log 0.6 = -Real.log (25 / 6) := by
        rw [← Real.log_mul (by norm_num) (by norm_num),
          show (0.4 * 0.6 : ℝ) = (25 / 6)⁻¹ by norm_num, Real.log_inv]
      linarith
    have hsq : Real.log (5 / 3 : ℝ) = (1 / 2) * Real.log (25 / 9) := by
      rw [show (25 / 9 : ℝ) = (5 / 3) ^ (2 : ℕ) by norm_num, Real.log_pow]
      push_cast
      ring
    have hlt : Real.log (5 / 3 : ℝ) < (1 / 2) * Real.log (25 / 6) := by
      have h9 : Real.log (25 / 9 : ℝ) < Real.log (25 / 6) :=
        Real.log_lt_log (by norm_num) (by norm_num)
      rw [hsq]
      linarith
    rw [hl, hr]
    exact ne_of_lt hlt

theorem c6_int_truncation_relation_witness :
    cross_entropy [0.5] [0.4] = m_cross_entropy (List.map np_int [0.5]) [0.4] :=
  c6_int_truncation_relation.1 [0.5] [0.4] rfl

/-- The binary cross-entropy formula `-sum(y*ln(p) + (1-y)*ln(1-p))`, the
reference expression the spec attributes to both notebook functions. -/
def binary_formula (Y P : List ℝ) : ℝ := -(List.zipWith ceTerm Y P).sum

/-- The multi-class cross-entropy formula `-Σᵢ Σⱼ y_ij ln(p_ij)` displayed
in the notebook's markdown, specialized to the 1-D inputs the notebook
actually passes. -/
def mc_formula (Y P : List ℝ) : ℝ :=
  -(List.zipWith (fun y p => y * Real.log p) Y P).sum

lemma m_cross_entropy_nonbinary_example :
    m_cross_entropy [1, 0, 2, 1] [0.4, 0.6, 0.1, 0.5] = Real.log 1125 := by
  have expand : m_cross_entropy [1, 0, 2, 1] [0.4, 0.6, 0.1, 0.5] =
      -(Real.log 0.4 + Real.log 0.4 + (2 * Real.log 0.1 - Real.log 0.9) +
        Real.log 0.5) := by
    unfold m_cross_entropy np_sum_scalar
    simp only [List.zipWith_cons_cons, List.zipWith_nil_right, List.sum_cons,
      List.sum_nil, ceTerm]
    norm_num
    ring
  have h2log : 2 * Real.log (0.1 : ℝ) = Real.log 0.01 := by
    rw [show (0.01 : ℝ) = 0.1 ^ (2 : ℕ) by norm_num, Real.log_pow]
    push_cast
    ring
  have hm1 : Real.log (0.4 : ℝ) + Real.log 0.4 = Real.log 0.16 := by
    rw [← Real.log_mul (by norm_num) (by norm_num)]
    norm_num
  have hm2 : Real.log (0.16 : ℝ) + Real.log 0.01 = Real.log 0.0016 := by
    rw [← Real.log_mul (by norm_num) (by norm_num)]
    norm_num
  have hm3 : Real.log (0.0016 : ℝ) + Real.log 0.5 = Real.log 0.0008 := by
    rw [← Real.log_mul (by norm_num) (by norm_num)]
    norm_num
  have hd : Real.log (0.0008 : ℝ) - Real.log 0.9 = Real.log (1 / 1125 : ℝ) := by
    rw [← Real.log_div (by norm_num) (by norm_num)]
    norm_num
  have hi : Real.log (1 / 1125 : ℝ) = -Real.log 1125 := by
    rw [one_div, Real.log_inv]
  rw [expand]
  linarith

lemma log_1125_decomp : Real.log 1125 = 10 * Real.log 2 + Real.log (1125 / 1024) := by
  rw [Real.log_div (by norm_num) (by norm_num),
    show (1024 : ℝ) = 2 ^ 10 by norm_num, Real.log_pow]
  push_cast
  ring

/-- Rational enclosure of `log 1125` tight enough to certify the decimal
the notebook prints for `m_cross_entropy([1, 0, 2, 1], ...)`. -/
lemma log_1125_approx : |Real.log 1125 - 7.025538314638521| < 0.001 := by
  have d := log_1125_decomp
  have l2a := Real.log_two_gt_d9
  have l2b := Real.log_two_lt_d9
  have hx : |(-(101 / 1024) : ℝ)| = 101 / 1024 := by
    rw [abs_neg, abs_of_pos (show (0 : ℝ) < 101 / 1024 by norm_num)]
  have taylor := Real.abs_log_sub_add_sum_range_le
    (x := (-(101 / 1024) : ℝ)) (by rw [hx]; norm_num) 3
  rw [hx, show (1 : ℝ) - -(101 / 1024) = 1125 / 1024 by norm_num] at taylor
  have hsum : ∑ i ∈ Finset.range 3, (-(101 / 1024 : ℝ)) ^ (i + 1) / (i + 1) =
      -303080093 / 3221225472 := by
    simp only [Finset.sum_range_succ, Finset.sum_range_zero]
    push_cast
    norm_num
  rw [hsum] at taylor
  have hrad : (101 / 1024 : ℝ) ^ (3 + 1) / (1 - 101 / 1024) =
      104060401 / 991063703552 := by norm_num
  rw [hrad, abs_le] at taylor
  obtain ⟨t1, t2⟩ := taylor
  rw [abs_sub_lt_iff]
  constructor <;> linarith

/-- C7: the notebook's `m_cross_entropy` computes the binary formula (the
outer `np.sum` over the scalar inner sum is the identity), not the
multi-class formula displayed in the markdown above it, and it accepts
labels outside `{0, 1}`: on `Y = [1, 0, 2, 1]`, `P = [0.4, 0.6, 0.1, 0.5]`
it returns `log 1125`, within floating-point tolerance of the printed
value `7.025538314638521`. -/
theorem c7_m_cross_entropy_is_binary_not_multiclass :
    (∀ (Y P : List ℝ), m_cross_entropy Y P = binary_formula Y P) ∧
    m_cross_entropy [0] [0.5] ≠ mc_formula [0] [0.5] ∧
    m_cross_entropy [1, 0, 2, 1] [0.4, 0.6, 0.1, 0.5] = Real.log 1125 ∧
    |Real.log 1125 - 7.025538314638521| < 0.001 := by
  refine ⟨fun Y P => rfl, ?_, m_cross_entropy_nonbinary_example, log_1125_approx⟩
  have hm : m_cross_entropy [(0 : ℝ)] [0.5] = Real.log 2 := by
    have e : m_cross_entropy [(0 : ℝ)] [0.5] = -Real.log 0.5 := by
      unfold m_cross_entropy np_sum_scalar
      simp only [List.zipWith_cons_cons, List.zipWith_nil_right, List.sum_cons,
        List.sum_nil, ceTerm]
      rw [show (1 : ℝ) - 0.5 = 0.5 by norm_num]
      ring
    rw [e, show (0.5 : ℝ) = 2⁻¹ by norm_num, Real.log_inv, neg_neg]
  have hf : mc_formula [(0 : ℝ)] [0.5] = 0 := by
    unfold mc_formula
    simp
  rw [hm, hf]
  exact ne_of_gt (Real.log_pos (by norm_num))


end

/-- Standard accuracy over binary labels: the fraction of positions where
prediction and truth agree, as computed by `sklearn.metrics.accuracy_score`. -/
def accuracy_score (y_true preds : List Bool) : ℚ :=
  ((List.zipWith (fun a b => a == b) y_true preds).count true : ℚ) / y_true.length

/-- True positives of a binary prediction. -/
def true_pos (y_true preds : List Bool) : ℕ :=
  (List.zipWith (fun a b => a && b) y_true preds).count true

/-- False positives of a binary prediction. -/
def false_pos (y_true preds : List Bool) : ℕ :=
  (List.zipWith (fun a b => !a && b) y_true preds).count true

/-- False negatives of a binary prediction. -/
def false_neg (y_true preds : List Bool) : ℕ :=
  (List.zipWith (fun a b => a && !b) y_true preds).count true

/-- Standard precision `tp / (tp + fp)`, as computed by
`sklearn.metrics.precision_score` (0 when the denominator is 0). -/
def precision_score (y_true preds : List Bool) : ℚ :=
  (true_pos y_true preds : ℚ) / ((true_pos y_true preds : ℚ) + false_pos y_true preds)

/-- Standard recall `tp / (tp + fn)`, as computed by
`sklearn.metrics.recall_score` (0 when the denominator is 0). -/
def recall_score (y_true preds : List Bool) : ℚ :=
  (true_pos y_true preds : ℚ) / ((true_pos y_true preds : ℚ) + false_neg y_true preds)

/-- Standard F1 score, the harmonic mean of precision and recall, as
computed by `sklearn.metrics.f1_score`. -/
def f1_score (y_true preds : List Bool) : ℚ :=
  2 * precision_score y_true preds * recall_score y_true preds /
    (precision_score y_true preds + recall_score y_true preds)

/-- Embedding of the notebook function `print_metrics(y_true, preds,
model_name=None)`: the list of `(label, value)` lines it prints, one branch
for `model_name == None` and one for a supplied name. -/
def print_metrics (y_true preds : List Bool) (model_name : Option String) :
    List (String × ℚ) :=
  match model_name with
  | none =>
      [("Accuracy score: ", accuracy_score y_true preds),
       ("Precision score: ", precision_score y_true preds),
       ("Recall score: ", recall_score y_true preds),
       ("F1 score: ", f1_score y_true preds)]
  | some name =>
      [("Accuracy score for " ++ name ++ " :", accuracy_score y_true preds),
       ("Precision score " ++ name ++ " :", precision_score y_true preds),
       ("Recall score " ++ name ++ " :", recall_score y_true preds),
       ("F1 score " ++ name ++ " :", f1_score y_true preds)]

/-- The model names passed to `print_metrics` by the notebook's scoring
cell, in order of invocation. -/
def scoring_invocations : List String :=
  ["bagging", "Random Forest", "AdaBoost", "Naive Bayes"]

/-- C8: `print_metrics` always computes and prints exactly the four metrics
accuracy, precision, recall and F1 for its `(y_true, preds)` pair; the four
numeric values are the same whether or not `model_name` is supplied; and
the scoring cell invokes it for each of the three fitted ensemble
classifiers. -/
theorem c8_print_metrics_four_values_independent_of_name :
    (∀ (y p : List Bool) (name : String),
      (print_metrics y p (some name)).map Prod.snd =
        (print_metrics y p none).map Prod.snd) ∧
    (∀ (y p : List Bool) (mn : Option String),
      (print_metrics y p mn).map Prod.snd =
        [accuracy_score y p, precision_score y p, recall_score y p,
          f1_score y p]) ∧
    "bagging" ∈ scoring_invocations ∧
    "Random Forest" ∈ scoring_invocations ∧
    "AdaBoost" ∈ scoring_invocations := by
  refine ⟨fun y p name => rfl, fun y p mn => ?_, ?_, ?_, ?_⟩
  · cases mn <;> rfl
  · simp [scoring_invocations]
  · simp [scoring_invocations]
  · simp [scoring_invocations]

/-- The operations performed inside one iteration of the inner training
loop, and around it, in the order the notebook executes them. -/
inductive TrainStep where
  | flatten
  | zero_grad
  | forward
  | compute_loss
  | backward
  | step
  | accum_loss
  | print_loss
  deriving DecidableEq

/-- `epochs = 5` from the training cell. -/
def epochs : ℕ := 5

/-- The body of `for images, labels in trainloader:` — flatten the images,
zero the gradients, forward pass, compute the NLL loss, backpropagate,
optimizer step, accumulate the running loss. -/
def batch_body : List TrainStep :=
  [.flatten, .zero_grad, .forward, .compute_loss, .backward, .step, .accum_loss]

/-- One pass of `for e in range(epochs):` over a loader with `nb` batches;
the `for`/`else` prints the running loss after the pass. -/
def epoch_trace (nb : ℕ) : List TrainStep :=
  (List.replicate nb batch_body).flatten ++ [.print_loss]

/-- The whole training loop: `epochs` passes over the loader. -/
def training_trace (nb : ℕ) : List TrainStep :=
  (List.replicate epochs (epoch_trace nb)).flatten

lemma count_flatten_replicate (n : ℕ) (l : List TrainStep) (s : TrainStep) :
    ((List.replicate n l).flatten.count s) = n * l.count s := by
  rw [List.count_flatten, List.map_replicate, List.sum_replicate, smul_eq_mul]

/-- C9: the training loop runs for exactly `epochs = 5` passes over the
loader (one optimizer step per batch per pass), and each batch iteration
performs, in order, gradient zeroing, the forward pass, the loss
computation, backpropagation and the optimizer step. -/
theorem c9_training_loop_structure :
    epochs = 5 ∧
    (∃ u v, batch_body =
      u ++ [TrainStep.zero_grad, TrainStep.forward, TrainStep.compute_loss,
        TrainStep.backward, TrainStep.step] ++ v) ∧
    (∀ nb : ℕ, (training_trace nb).count TrainStep.step = epochs * nb) := by
  refine ⟨rfl, ⟨[TrainStep.flatten], [TrainStep.accum_loss], rfl⟩, ?_⟩
  intro nb
  have hb : batch_body.count TrainStep.step = 1 := by decide
  have hp : ([TrainStep.print_loss] : List TrainStep).count TrainStep.step = 0 := by
    decide
  simp only [training_trace, epoch_trace]
  rw [count_flatten_replicate, List.count_append, count_flatten_replicate, hb, hp]
  ring

/-- A notebook-level operation: either a read of a plain-text input file
with the given separator character, or a computation that touches no input
file. -/
inductive NbStep where
  | file_read (path : String) (sep : Char)
  | compute (descr : String)
  deriving DecidableEq

/-- Whether a notebook operation reads an input file. -/
def is_file_read : NbStep → Bool
  | .file_read _ _ => true
  | .compute _ => false

/-- Cell-by-cell trace of the regularization notebook: one `pd.read_csv`
(comma-separated, `header=None`), then purely in-memory work. -/
def regularization_trace : List NbStep :=
  [.compute "import pandas, numpy, sklearn.linear_model",
   .file_read "testData/regularizationData.csv" ',',
   .compute "X = first six columns of train_data",
   .compute "y = last column of train_data",
   .compute "lasso_reg = linear_model.Lasso()",
   .compute "lasso_reg.fit(X, y)",
   .compute "reg_coef = lasso_reg.coef_"]

/-- Statement-level trace of the spam notebook: one `pd.read_table`
(tab-separated) of the SMS collection, then purely in-memory work. -/
def spam_trace : List NbStep :=
  [.compute "import pandas and sklearn helpers",
   .file_read "Data/SMSSpamCollection" '\t',
   .compute "map labels ham to 0 and spam to 1",
   .compute "train_test_split",
   .compute "CountVectorizer fit_transform and transform",
   .compute "MultinomialNB fit, predict and score",
   .compute "import the ensemble classifiers",
   .compute "instantiate bagging, random forest, adaboost",
   .compute "fit the three ensemble classifiers",
   .compute "predict with the three ensemble classifiers",
   .compute "define print_metrics",
   .compute "print_metrics for the four models"]

/-- `train_data.iloc[:, :-1]` applied to one row: all but the last column. -/
def iloc_all_but_last (row : List ℚ) : List ℚ := row.dropLast

/-- `train_data.iloc[:, -1]` applied to one row: the last column. -/
def iloc_last (row : List ℚ) : Option ℚ := row.getLast?

/-- C10: each notebook reads its plain-text input exactly once — the
regularization notebook performs a single comma-separated read (whose
seven columns split into the first six for `X` and the last for `y`) and
the spam notebook a single tab-separated read of the SMS collection. -/
theorem c10_single_read_per_notebook :
    regularization_trace.filter is_file_read =
      [NbStep.file_read "testData/regularizationData.csv" ','] ∧
    spam_trace.filter is_file_read =
      [NbStep.file_read "Data/SMSSpamCollection" '\t'] ∧
    (∀ row : List ℚ, row.length = 7 →
      iloc_all_but_last row = row.take 6 ∧ iloc_last row = row[6]?) := by
  refine ⟨rfl, rfl, ?_⟩
  intro row h
  constructor
  · unfold iloc_all_but_last
    rw [List.dropLast_eq_take, h]
  · unfold iloc_last
    rw [List.getLast?_eq_getElem?, h]

theorem c10_single_read_per_notebook_witness :
    iloc_all_but_last [1, 2, 3, 4, 5, 6, 7] =
      List.take 6 [1, 2, 3, 4, 5, 6, 7] ∧
    iloc_last [1, 2, 3, 4, 5, 6, 7] = ([1, 2, 3, 4, 5, 6, 7] : List ℚ)[6]? :=
  c10_single_read_per_notebook.2.2 [1, 2, 3, 4, 5, 6, 7] rfl
